import Mathlib

/-
  Verification of the template-merge/removal engine of `beast_utils`
  (src/beast_utils/templating.py), against the natural-language specification.

  The Python code operates on lxml element trees.  We embed those trees as the
  inductive type `XNode` below: a tag, an ordered attribute list, optional text
  content and an ordered child list.  Every templating operation of the source
  is translated into a pure function on `XNode`; in-place mutation becomes a
  returned tree, a raised exception becomes an error component of the result
  (carrying the tree state at the moment of the raise, so that claims about
  "unchanged on failure" are expressible).

  Python-specific semantics that the embedding reproduces faithfully:
  * `lst.insert(i, x)` clamps the index (appends when `i >= len`): `pyInsert`.
  * the truthiness chain `a or b or c` over attribute lookups treats the empty
    string as falsy: `orTruthy`.
  * a `for` loop that never runs leaves its loop variable unbound; a later use
    raises `NameError`.  `update_from_template` reads the loop variables
    `position` and `i` after such loops; the embedding returns
    `UErr.nameError` (with the tree state at that point) on exactly the same
    inputs.
-/

namespace BeastUtils

/-- An lxml element: tag, ordered attribute list, optional text, children. -/
inductive XNode : Type where
  | mk (tag : String) (attribs : List (String × String)) (text : Option String)
      (children : List XNode)
deriving Repr, Inhabited

def XNode.tag : XNode → String
  | .mk t _ _ _ => t

def XNode.attribs : XNode → List (String × String)
  | .mk _ a _ _ => a

def XNode.text : XNode → Option String
  | .mk _ _ x _ => x

def XNode.children : XNode → List XNode
  | .mk _ _ _ cs => cs

def XNode.withChildren : XNode → List XNode → XNode
  | .mk t a x _, cs => .mk t a x cs

/-- Attribute lookup (`element.get(k)` in lxml): first binding of the key. -/
def lookupAttr (a : List (String × String)) (k : String) : Option String :=
  (a.find? (fun p => p.1 == k)).map Prod.snd

def getAttr (n : XNode) (k : String) : Option String :=
  lookupAttr n.attribs k

/-- Replace the first element satisfying `q` by the value `x` (models an
    in-place mutation of the first match found by a linear scan). -/
def setFirst (q : α → Bool) (x : α) : List α → List α
  | [] => []
  | c :: rest => if q c then x :: rest else c :: setFirst q x rest

/-- Python `lst.insert(i, x)`: clamped insertion (appends when `i` is past the
    end of the list). -/
def pyInsert (i : Nat) (x : α) (l : List α) : List α :=
  l.take i ++ x :: l.drop i

/-- Index of the first element satisfying `q`. -/
def firstIdx (q : α → Bool) : List α → Option Nat
  | [] => none
  | c :: rest => if q c then some 0 else (firstIdx q rest).map (· + 1)

/-- Python `a or b`: the left operand unless it is `None` or the falsy empty
    string. -/
def orTruthy (a b : Option String) : Option String :=
  match a with
  | some s => if s == "" then b else some s
  | none => b

/-- The identifier chain `node.get("id") or node.get("idref") or
    node.get("name")` used by the leaf case of `_match_subtrees`. -/
def idChain (n : XNode) : Option String :=
  orTruthy (orTruthy (getAttr n "id") (getAttr n "idref")) (getAttr n "name")

/-- The attribute (name, value) pair `_find_candidate_matches` selects on:
    `id`, else `idref`, else `name`, else nothing (tag-only match). -/
def candKey (tpl : XNode) : Option (String × String) :=
  match getAttr tpl "id" with
  | some v => some ("id", v)
  | none =>
    match getAttr tpl "idref" with
    | some v => some ("idref", v)
    | none =>
      match getAttr tpl "name" with
      | some v => some ("name", v)
      | none => none

/-- Whether a child is a candidate match for the template node: equal tag and,
    when the template carries an identity attribute, an equal value for that
    attribute (the XPath query built by `_find_candidate_matches`). -/
def candPred (tpl : XNode) (c : XNode) : Bool :=
  c.tag == tpl.tag &&
    (match candKey tpl with
     | some kv => getAttr c kv.1 == some kv.2
     | none => true)

/-- The candidate list returned by `_find_candidate_matches` (document order). -/
def find_candidate_matches (parent tpl : XNode) : List XNode :=
  parent.children.filter (candPred tpl)

/-- The reuse test of `add_element`: the template must carry an `id` attribute
    and the child must agree on tag and `id` value. -/
def reusePred (t : String) (a : List (String × String)) (c : XNode) : Bool :=
  (lookupAttr a "id").isSome && c.tag == t && getAttr c "id" == lookupAttr a "id"

mutual
/-- Shallow embedding of `_match_subtrees`.  A leaf template is compared
    against `parent` itself (tag, then the truthiness identifier chain).  A
    template with children collects candidates (just `[parent]` when
    `top` is true) and checks the template children against the FIRST candidate
    only: the Python loop body ends in an unconditional `return`, and a falsy
    `None` is returned when the candidate list is empty. -/
def match_subtrees (parent template : XNode) (top : Bool) : Bool :=
  match template with
  | .mk t a x cs =>
    match cs with
    | [] =>
      if t ≠ parent.tag then false
      else
        match idChain (XNode.mk t a x []) with
        | none => true
        | some tid => some tid == idChain parent
    | _ :: _ =>
      let cands :=
        if top then [parent]
        else find_candidate_matches parent (XNode.mk t a x cs)
      match cands with
      | [] => false
      | c0 :: _ => matchChildren c0 cs

/-- The inner loop of `_match_subtrees`: every non-comment template child must
    match against the candidate; comments are skipped. -/
def matchChildren (cand : XNode) : List XNode → Bool
  | [] => true
  | c :: rest =>
    (c.tag == "comment" || match_subtrees cand c false) && matchChildren cand rest
end

mutual
/-- Shallow embedding of `add_element`.  When the template has an `id`
    attribute and some child of `parent` shares its tag and `id`, that first
    such child is reused (its subtree grows by the recursive additions);
    otherwise a fresh element with the template tag and attributes (and no
    text) is created, populated recursively, and inserted at `position`
    (clamped) or appended. -/
def add_element (parent template : XNode) (position : Option Nat) : XNode :=
  match template with
  | .mk t a _ cs =>
    match parent.children.find? (reusePred t a) with
    | some e0 =>
      parent.withChildren (setFirst (reusePred t a) (addChildren e0 cs) parent.children)
    | none =>
      let e := addChildren (XNode.mk t a none []) cs
      match position with
      | some p => parent.withChildren (pyInsert p e parent.children)
      | none => parent.withChildren (parent.children ++ [e])

/-- The recursive loop of `add_element` over the template children (always
    with append semantics, `position=None`). -/
def addChildren (e : XNode) : List XNode → XNode
  | [] => e
  | c :: rest => addChildren (add_element e c none) rest
end

/-- The element a creation branch of `add_element` builds for a template node:
    the template tag and attribute map, no text, and recursively added
    children. -/
def createdFrom (t : XNode) : XNode :=
  match t with
  | .mk tg a _ cs => addChildren (XNode.mk tg a none []) cs

mutual
/-- Shallow embedding of `remove_element`.  Result: the updated parent, the
    number of multiple-match warnings emitted, and a success flag (`false`
    models the `ValueError` of `_removal_error`; the tree component carries
    the partially modified state, since Python mutates in place before
    raising). -/
def remove_element (parent template : XNode) : XNode × Nat × Bool :=
  match template with
  | .mk t a x cs =>
    let tpl := XNode.mk t a x cs
    if parent.children.countP (candPred tpl) = 0 then
      (parent, 0, false)
    else
      match cs with
      | [] =>
        let w := if 1 < parent.children.countP (candPred tpl) then 1 else 0
        (parent.withChildren (parent.children.eraseP (candPred tpl)), w, true)
      | _ :: _ =>
        let q := fun c => candPred tpl c && match_subtrees c tpl true
        match parent.children.find? q with
        | none => (parent, 0, false)
        | some rp =>
          let rcount := cs.countP (fun c => !(c.tag == "comment"))
          let ocount := rp.children.countP (fun c => !(c.tag == "comment"))
          let res := removeChildren rp cs
          if res.2.2 then
            if ocount = rcount then
              (parent.withChildren (parent.children.eraseP q), res.2.1, true)
            else
              (parent.withChildren (setFirst q res.1 parent.children), res.2.1, true)
          else
            (parent.withChildren (setFirst q res.1 parent.children), res.2.1, false)

/-- The recursive loop of `remove_element` over the non-comment template
    children; a failure aborts the loop (the exception propagates) but keeps
    the removals already performed. -/
def removeChildren (p : XNode) : List XNode → XNode × Nat × Bool
  | [] => (p, 0, true)
  | c :: rest =>
    if c.tag = "comment" then removeChildren p rest
    else
      let r := remove_element p c
      if r.2.2 then
        let r2 := removeChildren r.1 rest
        (r2.1, r.2.1 + r2.2.1, r2.2.2)
      else
        (r.1, r.2.1, false)
end

/-- Errors of `update_from_template`: the `ValueError` raised by the
    root-tag/version checks of `_prepare_template` (the spec calls it
    `FormatError`), and the Python `NameError` raised when the loop variables
    `position` or `i` are read while unbound. -/
inductive UErr : Type where
  | formatError
  | nameError
deriving Repr, DecidableEq

/-- Errors of `remove_with_template`: format check failure, or the
    `ValueError` of `_removal_error` (the spec calls it `NotFoundError`). -/
inductive RErr : Type where
  | formatError
  | notFoundError
deriving Repr, DecidableEq

/-- The first loop of `update_from_template`: insert each template child at
    the running position counter (which increments even when the child was
    merely reused). -/
def addBefore (r : XNode) (p0 : Nat) : List XNode → XNode
  | [] => r
  | c :: rest => addBefore (add_element r c (some p0)) (p0 + 1) rest

/-- The second loop of `update_from_template` (and the recursion inside
    `add_element`'s creation branch at top level): plain append additions. -/
def addAppend (r : XNode) : List XNode → XNode
  | [] => r
  | c :: rest => addAppend (add_element r c none) rest

/-- Value of the Python loop variable `position` after
    `for position, child in enumerate(root.iterchildren()): if child.tag ==
    "operators": break`: unbound (`none`) when the root has no children, else
    the index of the first `operators` child, else the index of the LAST child
    (the loop ran to completion, leaving the final index). -/
def findPosition (cs : List XNode) : Option Nat :=
  match cs with
  | [] => none
  | _ :: _ => some ((firstIdx (fun c => c.tag == "operators") cs).getD (cs.length - 1))

/-- Shallow embedding of `update_from_template`.  Returns the (possibly
    partially updated) tree together with an optional error.  The branch
    structure mirrors the Python exactly, including the `NameError` cases:
    `position` is unbound when the root has no children, and `i` is unbound
    when the first template loop never ran (empty template, or the
    `before_operators or template_contains_operators` branch skipped). -/
def update_from_template (root tpl : XNode) (before_operators : Bool) :
    XNode × Option UErr :=
  if root.tag ≠ "beast" then (root, some .formatError)
  else if tpl.tag ≠ "beast" then (root, some .formatError)
  else if getAttr root "version" ≠ getAttr tpl "version" then (root, some .formatError)
  else
    let tcs := tpl.children
    let hasOps := tcs.any (fun c => c.tag == "operators")
    if before_operators || hasOps then
      let jOps := firstIdx (fun c => c.tag == "operators") tcs
      let pre := tcs.take (jOps.getD tcs.length)
      match findPosition root.children with
      | none =>
        match jOps with
        | some 0 => (addAppend root tcs, none)
        | _ => (root, some .nameError)
      | some p0 =>
        let root1 := addBefore root p0 pre
        match jOps with
        | some j => (addAppend root1 (tcs.drop j), none)
        | none =>
          match tcs with
          | [] => (root, some .nameError)
          | _ :: _ => (addAppend root1 (tcs.drop (tcs.length - 1)), none)
    else (root, some .nameError)

/-- The loop of `remove_with_template` over the top-level template children
    (comments NOT skipped at this level); a failure aborts the loop keeping
    earlier removals. -/
def removeSeq (r : XNode) : List XNode → XNode × Nat × Bool
  | [] => (r, 0, true)
  | c :: rest =>
    let r1 := remove_element r c
    if r1.2.2 then
      let r2 := removeSeq r1.1 rest
      (r2.1, r1.2.1 + r2.2.1, r2.2.2)
    else
      (r1.1, r1.2.1, false)

/-- Shallow embedding of `remove_with_template`. -/
def remove_with_template (root tpl : XNode) : XNode × Nat × Option RErr :=
  if root.tag ≠ "beast" then (root, 0, some .formatError)
  else if tpl.tag ≠ "beast" then (root, 0, some .formatError)
  else if getAttr root "version" ≠ getAttr tpl "version" then (root, 0, some .formatError)
  else
    let r := removeSeq root tpl.children
    (r.1, r.2.1, if r.2.2 then none else some .notFoundError)

mutual
/-- Whether every node of a template tree carries an identity key in the
    spec's sense (an `id`, `idref` or `name` attribute). -/
def allKeys : XNode → Bool
  | .mk t a x cs => (candKey (XNode.mk t a x [])).isSome && allKeysList cs

def allKeysList : List XNode → Bool
  | [] => true
  | c :: rest => allKeys c && allKeysList rest
end

mutual
/-- Whether every node of a template tree carries an `id` attribute — the only
    identity attribute `add_element` actually reuses on. -/
def allIds : XNode → Bool
  | .mk _ a _ cs => (lookupAttr a "id").isSome && allIdsList cs

def allIdsList : List XNode → Bool
  | [] => true
  | c :: rest => allIds c && allIdsList rest
end

mutual
/-- Invariant saying a template node is already merged into a parent: the
    parent has a child matching the template's tag and `id` attribute, and
    the first such child recursively contains all template children.  On such
    a parent `add_element` is the identity. -/
def mergedB (parent template : XNode) : Bool :=
  match template with
  | .mk t a _ cs =>
    match parent.children.find? (reusePred t a) with
    | none => false
    | some e0 => mergedAll e0 cs

def mergedAll (e : XNode) : List XNode → Bool
  | [] => true
  | c :: rest => mergedB e c && mergedAll e rest
end

/-! ### Concrete documents used by individual claims -/

def c1Target : XNode :=
  XNode.mk "beast" [("version", "1")] none
    [XNode.mk "a" [("id", "a")] none [],
     XNode.mk "operators" [("id", "ops")] none [],
     XNode.mk "b" [("id", "b")] none []]

def c1Template : XNode :=
  XNode.mk "beast" [("version", "1")] none
    [XNode.mk "x" [("id", "x")] none [],
     XNode.mk "operators" [("id", "ops")] none [],
     XNode.mk "y" [("id", "y")] none []]

def c2Target : XNode :=
  XNode.mk "beast" [("version", "1")] none
    [XNode.mk "operators" [("id", "ops")] none []]

def c2Template : XNode :=
  XNode.mk "beast" [("version", "1"), ("name", "t")] none
    [XNode.mk "x" [("name", "q")] none []]

def c4Parent : XNode :=
  XNode.mk "p" [] none
    [XNode.mk "a" [] none [],
     XNode.mk "a" [("id", "z")] none []]

def c4Template : XNode :=
  XNode.mk "a" [] none [XNode.mk "a" [("id", "z")] none []]

def c5Parent : XNode :=
  XNode.mk "p" [] none
    [XNode.mk "c" [("id", "x")] none [XNode.mk "item" [] none []]]

def c5Template : XNode :=
  XNode.mk "c" [("id", "x")] none [XNode.mk "item" [] none []]

def c9Parent : XNode :=
  XNode.mk "p" [] none
    [XNode.mk "item" [("name", "q")] none [],
     XNode.mk "item" [("name", "q")] none []]

def c9Template : XNode :=
  XNode.mk "item" [("name", "q")] none []

def c10Parent : XNode :=
  XNode.mk "p" [] none []

def c10Template : XNode :=
  XNode.mk "x" [("a", "b")] (some "hello") []

def c6Target : XNode :=
  XNode.mk "beast" [("version", "1")] none [XNode.mk "a" [] none []]

def c6Template : XNode :=
  XNode.mk "beast" [("version", "1")] none []

def c7Target : XNode :=
  XNode.mk "beast" [("version", "1")] none
    [XNode.mk "a" [] none [], XNode.mk "b" [] none []]

def c7Template : XNode :=
  XNode.mk "beast" [("version", "1")] none [XNode.mk "x" [] none []]

def c8Target : XNode :=
  XNode.mk "beast" [("version", "1.0")] none [XNode.mk "a" [] none []]

def c8Template : XNode :=
  XNode.mk "beast" [("version", "2.0")] none [XNode.mk "x" [] none []]

/-! ### Basic structural lemmas -/

theorem withChildren_tag (p : XNode) (cs : List XNode) : (p.withChildren cs).tag = p.tag := by
  cases p; rfl

theorem withChildren_attribs (p : XNode) (cs : List XNode) :
    (p.withChildren cs).attribs = p.attribs := by
  cases p; rfl

theorem withChildren_text (p : XNode) (cs : List XNode) : (p.withChildren cs).text = p.text := by
  cases p; rfl

theorem withChildren_children (p : XNode) (cs : List XNode) :
    (p.withChildren cs).children = cs := by
  cases p; rfl

theorem withChildren_self (p : XNode) : p.withChildren p.children = p := by
  cases p; rfl

theorem getAttr_withChildren (p : XNode) (cs : List XNode) (k : String) :
    getAttr (p.withChildren cs) k = getAttr p k := by
  cases p; rfl

mutual
theorem add_element_tag (parent template : XNode) (pos : Option Nat) :
    (add_element parent template pos).tag = parent.tag := by
  match template with
  | .mk t a x cs =>
    rw [add_element]
    cases parent.children.find? (reusePred t a) with
    | some e0 => exact withChildren_tag ..
    | none => cases pos <;> exact withChildren_tag ..

theorem addChildren_tag (e : XNode) (cs : List XNode) : (addChildren e cs).tag = e.tag := by
  match cs with
  | [] => rw [addChildren]
  | c :: rest => rw [addChildren, addChildren_tag (add_element e c none) rest, add_element_tag]
end

mutual
theorem add_element_attribs (parent template : XNode) (pos : Option Nat) :
    (add_element parent template pos).attribs = parent.attribs := by
  match template with
  | .mk t a x cs =>
    rw [add_element]
    cases parent.children.find? (reusePred t a) with
    | some e0 => exact withChildren_attribs ..
    | none => cases pos <;> exact withChildren_attribs ..

theorem addChildren_attribs (e : XNode) (cs : List XNode) :
    (addChildren e cs).attribs = e.attribs := by
  match cs with
  | [] => rw [addChildren]
  | c :: rest =>
    rw [addChildren, addChildren_attribs (add_element e c none) rest, add_element_attribs]
end

mutual
theorem add_element_text (parent template : XNode) (pos : Option Nat) :
    (add_element parent template pos).text = parent.text := by
  match template with
  | .mk t a x cs =>
    rw [add_element]
    cases parent.children.find? (reusePred t a) with
    | some e0 => exact withChildren_text ..
    | none => cases pos <;> exact withChildren_text ..

theorem addChildren_text (e : XNode) (cs : List XNode) : (addChildren e cs).text = e.text := by
  match cs with
  | [] => rw [addChildren]
  | c :: rest => rw [addChildren, addChildren_text (add_element e c none) rest, add_element_text]
end

theorem addBefore_tag (r : XNode) (p0 : Nat) (cs : List XNode) :
    (addBefore r p0 cs).tag = r.tag := by
  induction cs generalizing r p0 with
  | nil => rw [addBefore]
  | cons c rest ih => rw [addBefore, ih, add_element_tag]

theorem addAppend_tag (r : XNode) (cs : List XNode) : (addAppend r cs).tag = r.tag := by
  induction cs generalizing r with
  | nil => rw [addAppend]
  | cons c rest ih => rw [addAppend, ih, add_element_tag]

theorem add_element_getAttr (parent template : XNode) (pos : Option Nat) (k : String) :
    getAttr (add_element parent template pos) k = getAttr parent k := by
  unfold getAttr; rw [add_element_attribs]

theorem addBefore_getAttr (r : XNode) (p0 : Nat) (cs : List XNode) (k : String) :
    getAttr (addBefore r p0 cs) k = getAttr r k := by
  induction cs generalizing r p0 with
  | nil => rw [addBefore]
  | cons c rest ih => rw [addBefore, ih, add_element_getAttr]

theorem addAppend_getAttr (r : XNode) (cs : List XNode) (k : String) :
    getAttr (addAppend r cs) k = getAttr r k := by
  induction cs generalizing r with
  | nil => rw [addAppend]
  | cons c rest ih => rw [addAppend, ih, add_element_getAttr]

/-! ### Non-destructiveness: the `Preserved` relation

`Preserved old new` holds when `new` arises from `old` by only ADDING child
nodes (at any depth, at any list place): the tag, attribute map and text of
every original node are unchanged, and the original children appear, in
order and themselves preserved, as a subsequence of the new children. -/

mutual
inductive Preserved : XNode → XNode → Prop where
  | node (t : String) (a : List (String × String)) (x : Option String)
      (cs cs2 : List XNode) : SubForest cs cs2 →
      Preserved (XNode.mk t a x cs) (XNode.mk t a x cs2)

inductive SubForest : List XNode → List XNode → Prop where
  | nil : SubForest [] []
  | cons {c c2 : XNode} {cs cs2 : List XNode} :
      Preserved c c2 → SubForest cs cs2 → SubForest (c :: cs) (c2 :: cs2)
  | skip {cs cs2 : List XNode} (c2 : XNode) :
      SubForest cs cs2 → SubForest cs (c2 :: cs2)
end

mutual
theorem Preserved_refl (n : XNode) : Preserved n n :=
  match n with
  | .mk t a x cs => .node t a x cs cs (SubForest_refl cs)

theorem SubForest_refl (cs : List XNode) : SubForest cs cs :=
  match cs with
  | [] => .nil
  | c :: rest => .cons (Preserved_refl c) (SubForest_refl rest)
end

mutual
theorem Preserved_trans {a b c : XNode} (h1 : Preserved a b) (h2 : Preserved b c) :
    Preserved a c :=
  match h1, h2 with
  | .node t at_ x cs cs2 s1, .node _ _ _ _ cs3 s2 =>
    .node t at_ x cs cs3 (SubForest_trans s1 s2)

theorem SubForest_trans {l1 l2 l3 : List XNode} (h1 : SubForest l1 l2)
    (h2 : SubForest l2 l3) : SubForest l1 l3 :=
  match h2 with
  | .nil => h1
  | .cons p23 s23 =>
    match h1 with
    | .cons p12 s12 => .cons (Preserved_trans p12 p23) (SubForest_trans s12 s23)
    | .skip _ s12 => .skip _ (SubForest_trans s12 s23)
  | .skip c3 s23 => .skip c3 (SubForest_trans h1 s23)
end

theorem Preserved.tag_eq {a b : XNode} (h : Preserved a b) : a.tag = b.tag := by
  cases h; rfl

theorem Preserved.attribs_eq {a b : XNode} (h : Preserved a b) : a.attribs = b.attribs := by
  cases h; rfl

theorem Preserved.text_eq {a b : XNode} (h : Preserved a b) : a.text = b.text := by
  cases h; rfl

theorem Preserved.withChildren {p : XNode} {cs : List XNode}
    (h : SubForest p.children cs) : Preserved p (p.withChildren cs) := by
  cases p; exact .node _ _ _ _ _ h

theorem SubForest.append_one (cs : List XNode) (e : XNode) : SubForest cs (cs ++ [e]) := by
  induction cs with
  | nil => exact .skip e .nil
  | cons c rest ih => exact .cons (Preserved_refl c) ih

theorem SubForest.pyInsert (cs : List XNode) (p : Nat) (e : XNode) :
    SubForest cs (pyInsert p e cs) := by
  induction cs generalizing p with
  | nil => simp only [BeastUtils.pyInsert, List.take_nil, List.drop_nil, List.nil_append]
           exact .skip e .nil
  | cons c rest ih =>
    cases p with
    | zero => exact .skip e (SubForest_refl (c :: rest))
    | succ p =>
      simp only [BeastUtils.pyInsert, List.take_succ_cons, List.drop_succ_cons,
        List.cons_append]
      exact .cons (Preserved_refl c) (ih p)

theorem SubForest.setFirst {cs : List XNode} {q : XNode → Bool} {e0 x : XNode}
    (hf : cs.find? q = some e0) (hp : Preserved e0 x) : SubForest cs (setFirst q x cs) := by
  induction cs with
  | nil => simp at hf
  | cons c rest ih =>
    rw [List.find?_cons] at hf
    unfold BeastUtils.setFirst
    cases hq : q c with
    | true =>
      rw [hq] at hf
      simp only [hq, if_true]
      cases hf
      exact .cons hp (SubForest_refl rest)
    | false =>
      rw [hq] at hf
      simp only [hq, Bool.false_eq_true, if_false]
      exact .cons (Preserved_refl c) (ih hf)

mutual
theorem add_element_preserved (parent : XNode) (template : XNode) (pos : Option Nat) :
    Preserved parent (add_element parent template pos) := by
  match template with
  | .mk t a x cs =>
    rw [add_element]
    cases hf : parent.children.find? (reusePred t a) with
    | some e0 =>
      exact Preserved.withChildren
        (SubForest.setFirst hf (addChildren_preserved e0 cs))
    | none =>
      cases pos with
      | some p => exact Preserved.withChildren (SubForest.pyInsert parent.children p _)
      | none => exact Preserved.withChildren (SubForest.append_one parent.children _)

theorem addChildren_preserved (e : XNode) (cs : List XNode) :
    Preserved e (addChildren e cs) := by
  match cs with
  | [] => rw [addChildren]; exact Preserved_refl e
  | c :: rest =>
    rw [addChildren]
    exact Preserved_trans (add_element_preserved e c none)
      (addChildren_preserved (add_element e c none) rest)
end

theorem addBefore_preserved (r : XNode) (p0 : Nat) (cs : List XNode) :
    Preserved r (addBefore r p0 cs) := by
  induction cs generalizing r p0 with
  | nil => rw [addBefore]; exact Preserved_refl r
  | cons c rest ih =>
    rw [addBefore]
    exact Preserved_trans (add_element_preserved r c (some p0)) (ih _ _)

theorem addAppend_preserved (r : XNode) (cs : List XNode) :
    Preserved r (addAppend r cs) := by
  induction cs generalizing r with
  | nil => rw [addAppend]; exact Preserved_refl r
  | cons c rest ih =>
    rw [addAppend]
    exact Preserved_trans (add_element_preserved r c none) (ih _)

/-- C3: `update_from_template` never deletes or alters anything that existed in
    the target before the call.  Whatever branch is taken (success, format
    error, or Python `NameError`), the resulting tree preserves the original:
    every original node keeps its tag, attribute map and text byte-identical,
    and its original children survive, in order, as a subsequence of the new
    children — recursion may only add new children. -/
theorem update_from_template_nondestructive (root tpl : XNode) (b : Bool) :
    Preserved root (update_from_template root tpl b).1 := by
  unfold update_from_template
  split
  · exact Preserved_refl root
  split
  · exact Preserved_refl root
  split
  · exact Preserved_refl root
  split
  · dsimp only
    split
    · split
      · exact addAppend_preserved ..
      · exact Preserved_refl root
    · exact Preserved_refl root
  · dsimp only
    split
    · split
      · exact Preserved_trans (addBefore_preserved ..) (addAppend_preserved ..)
      · split
        · exact Preserved_refl root
        · exact Preserved_trans (addBefore_preserved ..) (addAppend_preserved ..)
    · exact Preserved_refl root

/-! ### List helper lemmas -/

theorem firstIdx_eq_none {q : α → Bool} {l : List α} (h : ∀ c ∈ l, q c = false) :
    firstIdx q l = none := by
  induction l with
  | nil => rfl
  | cons c rest ih =>
    unfold firstIdx
    rw [if_neg (by simp [h c (List.mem_cons_self c rest)]), ih]
    · rfl
    · exact fun x hx => h x (List.mem_cons_of_mem c hx)

theorem eraseP_decomp {q : α → Bool} {l : List α} (h : ∃ x ∈ l, q x = true) :
    ∃ l1 e l2, l = l1 ++ e :: l2 ∧ q e = true ∧ (∀ y ∈ l1, q y = false) ∧
      l.eraseP q = l1 ++ l2 := by
  induction l with
  | nil => simp at h
  | cons c rest ih =>
    cases hq : q c with
    | true =>
      exact ⟨[], c, rest, rfl, hq, by simp, by simp [List.eraseP_cons, hq]⟩
    | false =>
      have hr : ∃ x ∈ rest, q x = true := by
        obtain ⟨x, hx, hqx⟩ := h
        cases List.mem_cons.mp hx with
        | inl h1 => subst h1; rw [hq] at hqx; exact absurd hqx (by simp)
        | inr h2 => exact ⟨x, h2, hqx⟩
      obtain ⟨l1, e, l2, hdec, hqe, hl1, her⟩ := ih hr
      refine ⟨c :: l1, e, l2, by rw [hdec]; rfl, hqe, ?_, ?_⟩
      · intro y hy
        cases List.mem_cons.mp hy with
        | inl h1 => subst h1; exact hq
        | inr h2 => exact hl1 y h2
      · simp [List.eraseP_cons, hq, her]

/-! ### Claim C4 -/

/-- C4: the claim says the subtree matcher tries each candidate in document
    order and succeeds when SOME candidate satisfies every non-comment
    template child.  The code does not: the loop body of `_match_subtrees`
    returns `False` as soon as the first candidate fails a child, so later
    candidates are never examined.  Here the parent has two `a` candidates;
    the first (no children) fails the template child `<a id="z">`, the second
    satisfies every template child, yet the matcher reports no match. -/
theorem c4_first_candidate_only :
    find_candidate_matches c4Parent c4Template =
      [XNode.mk "a" [] none [], XNode.mk "a" [("id", "z")] none []] ∧
    matchChildren (XNode.mk "a" [("id", "z")] none []) c4Template.children = true ∧
    match_subtrees c4Parent c4Template false = false :=
  ⟨rfl, rfl, rfl⟩

/-! ### Claim C5 -/

/-- C5: the claim (and the docstring of `remove_element`) promise cascading
    cleanup: removing the only child of a container removes the container.
    On this input the container `<c id="x">` holds exactly the child the
    template describes, so the claim requires the container to be removed.
    Instead no candidate ever satisfies `_match_subtrees` (its leaf case
    compares the template child `<item>` against the candidate `<c>` itself,
    one level too high), and `remove_element` raises the removal error,
    leaving the tree unchanged.  The candidate list is nonempty and the
    non-comment child counts agree, so the claim's premise is satisfied. -/
theorem c5_cascade_fails :
    (find_candidate_matches c5Parent c5Template).length = 1 ∧
    (XNode.mk "c" [("id", "x")] none [XNode.mk "item" [] none []]).children.countP
        (fun c => !(c.tag == "comment")) =
      c5Template.children.countP (fun c => !(c.tag == "comment")) ∧
    remove_element c5Parent c5Template = (c5Parent, 0, false) :=
  ⟨rfl, rfl, rfl⟩

/-! ### Claim C6 -/

/-- C6: the claim says an empty template is a no-op.  In the code the first
    `for i, child in enumerate(template_children)` loop never runs, so `i` is
    unbound and the subsequent `template_children[i:]` raises `NameError`
    (whatever `before_operators` is); the tree is unchanged at that point but
    the call raises instead of returning it. -/
theorem c6_empty_template_nameerror (root tpl : XNode) (b : Bool)
    (hr : root.tag = "beast") (ht : tpl.tag = "beast")
    (hv : getAttr root "version" = getAttr tpl "version") (he : tpl.children = []) :
    update_from_template root tpl b = (root, some UErr.nameError) := by
  unfold update_from_template
  rw [if_neg (by simp [hr]), if_neg (by simp [ht]), if_neg (by simp [hv])]
  dsimp only
  rw [he]
  simp only [List.any_nil, Bool.or_false]
  cases b with
  | false => simp
  | true =>
    simp only [if_true]
    cases hfp : findPosition root.children with
    | none => simp [firstIdx]
    | some p0 => simp [firstIdx]

/-- Witness for C6 at a concrete target and empty template. -/
theorem c6_witness :
    c6Target.tag = "beast" ∧ c6Template.tag = "beast" ∧
    getAttr c6Target "version" = getAttr c6Template "version" ∧
    c6Template.children = [] ∧
    update_from_template c6Target c6Template true = (c6Target, some UErr.nameError) :=
  ⟨rfl, rfl, rfl, rfl, c6_empty_template_nameerror c6Target c6Template true rfl rfl rfl rfl⟩

/-! ### Claim C8 -/

/-- C8: a root-tag mismatch on either document, or unequal version
    attributes, makes both `update_from_template` and `remove_with_template`
    fail with the format error before any mutation: the returned tree is the
    untouched target. -/
theorem c8_format_mismatch (root tpl : XNode) (b : Bool)
    (h : root.tag ≠ "beast" ∨ tpl.tag ≠ "beast" ∨
      getAttr root "version" ≠ getAttr tpl "version") :
    update_from_template root tpl b = (root, some UErr.formatError) ∧
    remove_with_template root tpl = (root, 0, some RErr.formatError) := by
  constructor
  · unfold update_from_template
    split
    · rfl
    split
    · rfl
    split
    · rfl
    · rename_i h1 h2 h3
      rcases h with h | h | h
      · exact absurd h h1
      · exact absurd h h2
      · exact absurd h h3
  · unfold remove_with_template
    split
    · rfl
    split
    · rfl
    split
    · rfl
    · rename_i h1 h2 h3
      rcases h with h | h | h
      · exact absurd h h1
      · exact absurd h h2
      · exact absurd h h3

/-- Witness for C8: merging (or removing with) a `version="2.0"` template
    into a `version="1.0"` target fails with the format error and leaves the
    target unchanged. -/
theorem c8_witness :
    getAttr c8Target "version" ≠ getAttr c8Template "version" ∧
    update_from_template c8Target c8Template true = (c8Target, some UErr.formatError) ∧
    remove_with_template c8Target c8Template = (c8Target, 0, some RErr.formatError) :=
  ⟨by decide,
   (c8_format_mismatch c8Target c8Template true (Or.inr (Or.inr (by decide)))).1,
   (c8_format_mismatch c8Target c8Template true (Or.inr (Or.inr (by decide)))).2⟩

/-! ### Claim C9 -/

/-- C9: a childless removal template with several candidates removes exactly
    the first candidate in document order, emits exactly one multiple-match
    warning, and leaves every other candidate in place: the result is the
    parent with the first matching child deleted and the rest untouched. -/
theorem c9_remove_leaf_multimatch (parent tpl : XNode)
    (hleaf : tpl.children = [])
    (hmulti : 2 ≤ parent.children.countP (candPred tpl)) :
    ∃ l1 e l2, parent.children = l1 ++ e :: l2 ∧ candPred tpl e = true ∧
      (∀ y ∈ l1, candPred tpl y = false) ∧
      remove_element parent tpl = (parent.withChildren (l1 ++ l2), 1, true) := by
  obtain ⟨t, a, x, cs⟩ := tpl
  have hcs : cs = [] := hleaf
  subst hcs
  have hex : ∃ y ∈ parent.children, candPred (XNode.mk t a x []) y = true :=
    List.countP_pos_iff.mp (lt_of_lt_of_le (by norm_num) hmulti)
  obtain ⟨l1, e, l2, hdec, hqe, hl1, her⟩ := eraseP_decomp hex
  refine ⟨l1, e, l2, hdec, hqe, hl1, ?_⟩
  rw [remove_element]
  rw [if_neg (by omega)]
  rw [if_pos (by omega)]
  rw [her]

/-- Witness for C9: two identical `<item name="q">` children and a childless
    `<item name="q">` template; exactly the first is removed, one warning. -/
theorem c9_witness :
    c9Template.children = [] ∧ 2 ≤ c9Parent.children.countP (candPred c9Template) ∧
    ∃ l1 e l2, c9Parent.children = l1 ++ e :: l2 ∧ candPred c9Template e = true ∧
      (∀ y ∈ l1, candPred c9Template y = false) ∧
      remove_element c9Parent c9Template = (c9Parent.withChildren (l1 ++ l2), 1, true) :=
  ⟨rfl, by decide, c9_remove_leaf_multimatch c9Parent c9Template rfl (by decide)⟩

/-! ### Claim C10 -/

/-- C10: when `add_element` creates a node (no existing child matches the
    template's tag and `id`), the created node carries the template's tag and
    attribute map but never its text: `makeelement(template.tag,
    template.attrib)` copies no text, so template text is silently dropped. -/
theorem c10_created_node_has_no_text (parent t : XNode) (pos : Option Nat)
    (hnew : parent.children.find? (reusePred t.tag t.attribs) = none) :
    (add_element parent t pos).children =
      (match pos with
       | some p => pyInsert p (createdFrom t) parent.children
       | none => parent.children ++ [createdFrom t]) ∧
    (createdFrom t).tag = t.tag ∧ (createdFrom t).attribs = t.attribs ∧
    (createdFrom t).text = none := by
  obtain ⟨tg, a, x, cs⟩ := t
  simp only [XNode.tag, XNode.attribs] at hnew
  refine ⟨?_, ?_, ?_, ?_⟩
  · rw [add_element, hnew]
    cases pos with
    | some p => rw [withChildren_children]; rfl
    | none => rw [withChildren_children]; rfl
  · rw [createdFrom, addChildren_tag]; rfl
  · rw [createdFrom, addChildren_attribs]; rfl
  · rw [createdFrom, addChildren_text]; rfl

/-- Witness for C10: a template with text content `"hello"` merged into an
    empty parent yields a child with the same tag and attributes and no
    text. -/
theorem c10_witness :
    c10Template.text = some "hello" ∧
    c10Parent.children.find? (reusePred c10Template.tag c10Template.attribs) = none ∧
    ((add_element c10Parent c10Template none).children =
      c10Parent.children ++ [createdFrom c10Template] ∧
     (createdFrom c10Template).tag = c10Template.tag ∧
     (createdFrom c10Template).attribs = c10Template.attribs ∧
     (createdFrom c10Template).text = none) :=
  ⟨rfl, rfl, c10_created_node_has_no_text c10Parent c10Template none rfl⟩

/-! ### Counterexamples for C1, C2, C7 -/

/-- C1 counterexample: with target children `[a, operators, b]` and template
    children `[x, operators, y]`, the claim asserts final order
    `[a, x, operators, y, b]`.  The code inserts `x` before the anchor but
    APPENDS everything from the template's anchor onward, so `y` lands after
    `b`: the actual order is `[a, x, operators, b, y]`. -/
theorem c1_counterexample :
    (update_from_template c1Target c1Template true).1.children.map XNode.tag =
      ["a", "x", "operators", "b", "y"] ∧
    ¬((update_from_template c1Target c1Template true).1.children.map XNode.tag =
      ["a", "x", "operators", "y", "b"]) :=
  ⟨rfl, by decide⟩

/-- C2 counterexample: every node of the template carries an identity key (a
    `name` attribute), yet applying `update_from_template` twice is not the
    same as applying it once: `add_element` only reuses on the `id`
    attribute, so the `name`-keyed node is created again on each
    application (the child lists of the two results differ in length). -/
theorem c2_counterexample :
    allKeys c2Template = true ∧
    (update_from_template (update_from_template c2Target c2Template true).1
        c2Template true).1 ≠
      (update_from_template c2Target c2Template true).1 := by
  refine ⟨rfl, fun h => ?_⟩
  exact absurd (congrArg (fun n => n.children.length) h) (by decide)

/-- C7 counterexample: the target has no `operators` child, so the claim
    asserts new top-level children are appended at the end (`[a, b, x]`).
    Instead the Python position counter ends at the index of the LAST child,
    so `x` is inserted before `b`, and the loop-variable leak re-adds the
    final template child at the end: the actual order is `[a, x, b, x]`. -/
theorem c7_counterexample :
    (update_from_template c7Target c7Template true).1.children.map XNode.tag =
      ["a", "x", "b", "x"] ∧
    ¬((update_from_template c7Target c7Template true).1.children.map XNode.tag =
      ["a", "b", "x"]) :=
  ⟨rfl, by decide⟩

/-! ### Helpers for the ordering theorems -/

theorem find?_reusePred_noId {a : List (String × String)} (h : lookupAttr a "id" = none)
    (t : String) (l : List XNode) : l.find? (reusePred t a) = none :=
  List.find?_eq_none.mpr (fun c _ => by simp [reusePred, h])

theorem findPosition_ne_nil {cs : List XNode} (h : cs ≠ []) :
    findPosition cs =
      some ((firstIdx (fun c => c.tag == "operators") cs).getD (cs.length - 1)) := by
  cases cs with
  | nil => exact absurd rfl h
  | cons c rest => rfl

theorem add_element_noId (parent : XNode) (xt : String) (xa : List (String × String))
    (xx : Option String) (xcs : List XNode) (h : lookupAttr xa "id" = none) :
    (∀ p, add_element parent (XNode.mk xt xa xx xcs) (some p) =
      parent.withChildren (pyInsert p (createdFrom (XNode.mk xt xa xx xcs)) parent.children)) ∧
    add_element parent (XNode.mk xt xa xx xcs) none =
      parent.withChildren (parent.children ++ [createdFrom (XNode.mk xt xa xx xcs)]) := by
  constructor
  · intro p
    rw [add_element, find?_reusePred_noId h]
    rfl
  · rw [add_element, find?_reusePred_noId h]
    rfl

/-- C7 amended: when the target root has no `operators` child and
    `before_operators=true`, the Python position counter ends at the index of
    the LAST existing child (not one past it), so a template child without an
    `id` is inserted just before the last existing child; the loop-variable
    leak then re-processes the final template child with append semantics,
    adding a second copy at the end. -/
theorem c7_no_anchor_inserts_before_last (C : List XNode) (X : XNode)
    (ra rt : List (String × String))
    (hC : C ≠ []) (hCops : ∀ c ∈ C, c.tag ≠ "operators")
    (hX : X.tag ≠ "operators") (hXid : getAttr X "id" = none)
    (hv : lookupAttr ra "version" = lookupAttr rt "version") :
    update_from_template (XNode.mk "beast" ra none C)
        (XNode.mk "beast" rt none [X]) true =
      (XNode.mk "beast" ra none
        (pyInsert (C.length - 1) (createdFrom X) C ++ [createdFrom X]), none) := by
  obtain ⟨xt, xa, xx, xcs⟩ := X
  have hxa : lookupAttr xa "id" = none := hXid
  have hxt : xt ≠ "operators" := hX
  unfold update_from_template
  rw [if_neg (by simp [XNode.tag]), if_neg (by simp [XNode.tag]),
      if_neg (by simp [getAttr, XNode.attribs, hv])]
  dsimp only
  have hfi : firstIdx (fun c => c.tag == "operators") [XNode.mk xt xa xx xcs] = none :=
    firstIdx_eq_none (by
      intro c hc
      rw [List.mem_singleton] at hc
      subst hc
      simp [XNode.tag, hxt])
  have hfiC : firstIdx (fun c => c.tag == "operators") C = none :=
    firstIdx_eq_none (by intro c hc; simp [hCops c hc])
  rw [show (XNode.mk "beast" rt none [XNode.mk xt xa xx xcs]).children
        = [XNode.mk xt xa xx xcs] from rfl,
      show (XNode.mk "beast" ra none C).children = C from rfl,
      hfi, findPosition_ne_nil hC, hfiC]
  simp only [Bool.true_or, if_true, Option.getD_none, Option.getD_some]
  rw [show List.take (List.length [XNode.mk xt xa xx xcs]) [XNode.mk xt xa xx xcs]
        = [XNode.mk xt xa xx xcs] from rfl]
  rw [addBefore, addBefore]
  rw [(add_element_noId (XNode.mk "beast" ra none C) xt xa xx xcs hxa).1 (C.length - 1)]
  rw [show List.drop (List.length [XNode.mk xt xa xx xcs] - 1) [XNode.mk xt xa xx xcs]
        = [XNode.mk xt xa xx xcs] from rfl]
  rw [addAppend, addAppend]
  rw [(add_element_noId _ xt xa xx xcs hxa).2]
  rw [withChildren_children]
  rfl

def c7X : XNode := XNode.mk "x" [] none []

/-- Witness for the amended C7 at the concrete `[a, b]` target. -/
theorem c7_witness :
    c7Target.children ≠ [] ∧ (∀ c ∈ c7Target.children, c.tag ≠ "operators") ∧
    c7X.tag ≠ "operators" ∧ getAttr c7X "id" = none ∧
    update_from_template (XNode.mk "beast" [("version", "1")] none c7Target.children)
        (XNode.mk "beast" [("version", "1")] none [c7X]) true =
      (XNode.mk "beast" [("version", "1")] none
        (pyInsert (c7Target.children.length - 1) (createdFrom c7X) c7Target.children ++
          [createdFrom c7X]), none) :=
  ⟨by simp [c7Target, XNode.children],
   by simp [c7Target, XNode.children, List.forall_mem_cons, XNode.tag],
   by decide, rfl,
   c7_no_anchor_inserts_before_last c7Target.children c7X
     [("version", "1")] [("version", "1")]
     (by simp [c7Target, XNode.children])
     (by simp [c7Target, XNode.children, List.forall_mem_cons, XNode.tag])
     (by decide) rfl rfl⟩

/-- C1 amended: with target children `[A, operators, B]` and template
    children `[X, operators, Y]` (the template anchor merging into the target
    anchor by `id`, `X` and `Y` carrying no `id`), `before_operators=true`
    inserts `X` just before the anchor, but every template child from the
    anchor onward is added with append semantics, so `Y` is appended AFTER
    `B`: the final order is `[A, X, operators, B, Y]`, not
    `[A, X, operators, Y, B]`. -/
theorem c1_ordering_amended (A opsT B X opsX Y : XNode)
    (ra rt : List (String × String))
    (hA : A.tag ≠ "operators") (hX : X.tag ≠ "operators")
    (hXid : getAttr X "id" = none)
    (hopsT : opsT.tag = "operators") (hopsX : opsX.tag = "operators")
    (hid : getAttr opsX "id" = getAttr opsT "id")
    (hids : (getAttr opsX "id").isSome = true)
    (hchild : opsX.children = [])
    (hYid : getAttr Y "id" = none)
    (hv : lookupAttr ra "version" = lookupAttr rt "version") :
    update_from_template (XNode.mk "beast" ra none [A, opsT, B])
        (XNode.mk "beast" rt none [X, opsX, Y]) true =
      (XNode.mk "beast" ra none [A, createdFrom X, opsT, B, createdFrom Y], none) := by
  obtain ⟨xt, xa, xx, xcs⟩ := X
  obtain ⟨ot, oa, ox, ocs⟩ := opsX
  obtain ⟨yt, ya, yx, ycs⟩ := Y
  have hxa : lookupAttr xa "id" = none := hXid
  have hya : lookupAttr ya "id" = none := hYid
  have hxt : xt ≠ "operators" := hX
  have hot : ot = "operators" := hopsX
  have hocs : ocs = [] := hchild
  subst hot hocs
  have hoa : lookupAttr oa "id" = getAttr opsT "id" := hid
  have hoas : (lookupAttr oa "id").isSome = true := hids
  unfold update_from_template
  rw [if_neg (by simp [XNode.tag]), if_neg (by simp [XNode.tag]),
      if_neg (by simp [getAttr, XNode.attribs, hv])]
  dsimp only
  have hfi : firstIdx (fun c => c.tag == "operators")
      [XNode.mk xt xa xx xcs, XNode.mk "operators" oa ox [], XNode.mk yt ya yx ycs] =
      some 1 := by
    simp [firstIdx, XNode.tag, hxt]
  have hfp : findPosition [A, opsT, B] = some 1 := by
    unfold findPosition
    rw [show firstIdx (fun c => c.tag == "operators") [A, opsT, B] = some 1 by
      simp [firstIdx, hA, hopsT]]
    rfl
  rw [show (XNode.mk "beast" rt none
        [XNode.mk xt xa xx xcs, XNode.mk "operators" oa ox [], XNode.mk yt ya yx ycs]).children
      = [XNode.mk xt xa xx xcs, XNode.mk "operators" oa ox [], XNode.mk yt ya yx ycs]
      from rfl,
      show (XNode.mk "beast" ra none [A, opsT, B]).children = [A, opsT, B] from rfl,
      hfi, hfp]
  simp only [Bool.true_or, if_true, Option.getD_some, List.take_succ_cons, List.take_zero,
    List.drop_succ_cons, List.drop_zero]
  rw [addBefore, addBefore]
  rw [(add_element_noId (XNode.mk "beast" ra none [A, opsT, B]) xt xa xx xcs hxa).1 1]
  rw [show (XNode.mk "beast" ra none [A, opsT, B]).children = [A, opsT, B] from rfl]
  rw [show (XNode.mk "beast" ra none [A, opsT, B]).withChildren
        (pyInsert 1 (createdFrom (XNode.mk xt xa xx xcs)) [A, opsT, B])
      = XNode.mk "beast" ra none
          [A, createdFrom (XNode.mk xt xa xx xcs), opsT, B] from rfl]
  rw [addAppend]
  have hcx : (createdFrom (XNode.mk xt xa xx xcs)).tag = xt := by
    rw [createdFrom, addChildren_tag]; rfl
  have hpA : reusePred "operators" oa A = false := by
    simp [reusePred, hA]
  have hpE : reusePred "operators" oa (createdFrom (XNode.mk xt xa xx xcs)) = false := by
    simp [reusePred, hcx, hxt]
  have h2 : (getAttr opsT "id").isSome = true := by rw [← hoa]; exact hoas
  have hpT : reusePred "operators" oa opsT = true := by
    unfold reusePred
    rw [hoa]
    simp [h2, hopsT]
  rw [show add_element
        (XNode.mk "beast" ra none [A, createdFrom (XNode.mk xt xa xx xcs), opsT, B])
        (XNode.mk "operators" oa ox []) none
      = XNode.mk "beast" ra none [A, createdFrom (XNode.mk xt xa xx xcs), opsT, B] by
    rw [add_element]
    rw [show (XNode.mk "beast" ra none
          [A, createdFrom (XNode.mk xt xa xx xcs), opsT, B]).children
        = [A, createdFrom (XNode.mk xt xa xx xcs), opsT, B] from rfl]
    rw [show List.find? (reusePred "operators" oa)
          [A, createdFrom (XNode.mk xt xa xx xcs), opsT, B] = some opsT by
      simp [List.find?_cons, hpA, hpE, hpT]]
    dsimp only
    rw [show addChildren opsT ([] : List XNode) = opsT from rfl]
    rw [show setFirst (reusePred "operators" oa) opsT
          [A, createdFrom (XNode.mk xt xa xx xcs), opsT, B]
        = [A, createdFrom (XNode.mk xt xa xx xcs), opsT, B] by
      simp [setFirst, hpA, hpE, hpT]]
    rfl]
  rw [addAppend, addAppend]
  rw [(add_element_noId _ yt ya yx ycs hya).2]
  rfl

def c1A : XNode := XNode.mk "a" [("id", "a")] none []

def c1OpsT : XNode := XNode.mk "operators" [("id", "ops")] none []

def c1B : XNode := XNode.mk "b" [("id", "b")] none []

def c1X : XNode := XNode.mk "x" [] none []

def c1OpsX : XNode := XNode.mk "operators" [("id", "ops")] none []

def c1Y : XNode := XNode.mk "y" [] none []

/-- Witness for the amended C1 at a concrete `[A, operators, B]` target. -/
theorem c1_witness :
    c1A.tag ≠ "operators" ∧ c1X.tag ≠ "operators" ∧ getAttr c1X "id" = none ∧
    c1OpsT.tag = "operators" ∧ c1OpsX.tag = "operators" ∧
    getAttr c1OpsX "id" = getAttr c1OpsT "id" ∧ (getAttr c1OpsX "id").isSome = true ∧
    c1OpsX.children = [] ∧ getAttr c1Y "id" = none ∧
    update_from_template (XNode.mk "beast" [("version", "1")] none [c1A, c1OpsT, c1B])
        (XNode.mk "beast" [("version", "1")] none [c1X, c1OpsX, c1Y]) true =
      (XNode.mk "beast" [("version", "1")] none
        [c1A, createdFrom c1X, c1OpsT, c1B, createdFrom c1Y], none) :=
  ⟨by decide, by decide, rfl, rfl, rfl, rfl, rfl, rfl, rfl,
   c1_ordering_amended c1A c1OpsT c1B c1X c1OpsX c1Y
     [("version", "1")] [("version", "1")]
     (by decide) (by decide) rfl rfl rfl rfl rfl rfl rfl rfl⟩

/-! ### List lemmas about `setFirst`, `pyInsert` and `find?` -/

theorem length_setFirst (q : α → Bool) (x : α) (l : List α) :
    (setFirst q x l).length = l.length := by
  induction l with
  | nil => rfl
  | cons c rest ih =>
    unfold setFirst
    cases hq : q c with
    | true => simp [hq]
    | false => simp [hq, ih]

theorem setFirst_of_find?_self {q : α → Bool} {l : List α} {e0 : α}
    (h : l.find? q = some e0) : setFirst q e0 l = l := by
  induction l with
  | nil => simp at h
  | cons c rest ih =>
    rw [List.find?_cons] at h
    unfold setFirst
    cases hq : q c with
    | true => rw [hq] at h; cases h; simp [hq]
    | false => rw [hq] at h; simp [hq, ih h]

theorem find?_setFirst_self {q : α → Bool} {l : List α} {e0 x : α}
    (h : l.find? q = some e0) (hx : q x = true) : (setFirst q x l).find? q = some x := by
  induction l with
  | nil => simp at h
  | cons c rest ih =>
    rw [List.find?_cons] at h
    unfold setFirst
    cases hq : q c with
    | true => simp [List.find?_cons, hx]
    | false => rw [hq] at h; simp [List.find?_cons, hq, ih h]

theorem find?_setFirst_cases {q1 q2 : α → Bool} {l : List α} {x : α}
    (hcong : ∀ y, l.find? q2 = some y → q1 x = q1 y) :
    ((setFirst q2 x l).find? q1 = l.find? q1) ∨
    (l.find? q1 = l.find? q2 ∧ (setFirst q2 x l).find? q1 = some x) := by
  induction l with
  | nil => exact Or.inl rfl
  | cons c rest ih =>
    unfold setFirst
    cases hq2 : q2 c with
    | true =>
      have hx : q1 x = q1 c := hcong c (by rw [List.find?_cons, hq2])
      cases hq1 : q1 c with
      | true =>
        rw [hq1] at hx
        exact Or.inr ⟨by simp [List.find?_cons, hq1, hq2],
          by simp [List.find?_cons, hx]⟩
      | false =>
        rw [hq1] at hx
        exact Or.inl (by simp [List.find?_cons, hq1, hx])
    | false =>
      cases hq1 : q1 c with
      | true => exact Or.inl (by simp [List.find?_cons, hq1])
      | false =>
        have hcr : ∀ y, rest.find? q2 = some y → q1 x = q1 y := by
          intro y hy
          exact hcong y (by rw [List.find?_cons, hq2]; exact hy)
        cases ih hcr with
        | inl hl => exact Or.inl (by simp [List.find?_cons, hq1, hl])
        | inr hr =>
          exact Or.inr ⟨by simp [List.find?_cons, hq1, hq2, hr.1],
            by simp [List.find?_cons, hq1, hr.2]⟩

theorem find?_pyInsert_neg {q : α → Bool} {x : α} (h : q x = false) (i : Nat) (l : List α) :
    (pyInsert i x l).find? q = l.find? q := by
  unfold pyInsert
  rw [List.find?_append, List.find?_cons, h]
  rw [← List.find?_append, List.take_append_drop]

theorem find?_append_one_neg {q : α → Bool} {x : α} (h : q x = false) (l : List α) :
    (l ++ [x]).find? q = l.find? q := by
  rw [List.find?_append]
  simp [List.find?_cons, h]

theorem find?_pyInsert_pos {q : α → Bool} {x : α} {l : List α}
    (hn : l.find? q = none) (h : q x = true) (i : Nat) :
    (pyInsert i x l).find? q = some x := by
  unfold pyInsert
  have h1 : (l.take i).find? q = none := by
    rw [List.find?_eq_none] at hn ⊢
    exact fun a ha => hn a (List.take_subset i l ha)
  rw [List.find?_append, h1, Option.none_or, List.find?_cons, h]

theorem find?_append_one_pos {q : α → Bool} {x : α} {l : List α}
    (hn : l.find? q = none) (h : q x = true) :
    (l ++ [x]).find? q = some x := by
  rw [List.find?_append, hn, Option.none_or, List.find?_cons, h]

/-! ### Facts about `reusePred` -/

theorem reusePred_congr {t : String} {a : List (String × String)} {c d : XNode}
    (htag : c.tag = d.tag) (hattr : c.attribs = d.attribs) :
    reusePred t a c = reusePred t a d := by
  unfold reusePred getAttr
  rw [htag, hattr]

theorem reusePred_ext {t1 t2 : String} {a1 a2 : List (String × String)}
    (ht : t1 = t2) (ha : lookupAttr a1 "id" = lookupAttr a2 "id") (c : XNode) :
    reusePred t1 a1 c = reusePred t2 a2 c := by
  unfold reusePred
  rw [ht, ha]

/-! ### Facts about `mergedB` -/

theorem mergedAll_mono {e e2 : XNode} {cs : List XNode}
    (h : ∀ c ∈ cs, mergedB e c = true → mergedB e2 c = true)
    (hm : mergedAll e cs = true) : mergedAll e2 cs = true := by
  induction cs with
  | nil => rfl
  | cons c rest ih =>
    rw [mergedAll] at hm ⊢
    rw [Bool.and_eq_true] at hm ⊢
    exact ⟨h c (List.mem_cons_self c rest) hm.1,
      ih (fun d hd => h d (List.mem_cons_of_mem c hd)) hm.2⟩

theorem mergedAll_mem {e : XNode} {cs : List XNode} {c : XNode}
    (hm : mergedAll e cs = true) (hc : c ∈ cs) : mergedB e c = true := by
  induction cs with
  | nil => simp at hc
  | cons d rest ih =>
    rw [mergedAll, Bool.and_eq_true] at hm
    cases List.mem_cons.mp hc with
    | inl h => subst h; exact hm.1
    | inr h => exact ih hm.2 h

mutual
/-- Stability: adding any all-`id` template `t2` (at any position) cannot
    destroy the merged-ness of another template `t`: the first tag+id match
    keeps existing and its subtree keeps containing `t`'s children. -/
theorem merged_stable (t2 : XNode) (p t : XNode) (pos : Option Nat)
    (hall : allIds t2 = true) (hm : mergedB p t = true) :
    mergedB (add_element p t2 pos) t = true := by
  match t2 with
  | .mk tg2 a2 x2 cs2 =>
    obtain ⟨t1, a1, x1, cs1⟩ := t
    rw [allIds, Bool.and_eq_true] at hall
    rw [mergedB] at hm
    cases hf : p.children.find? (reusePred t1 a1) with
    | none => rw [hf] at hm; simp at hm
    | some e0 =>
      rw [hf] at hm
      have hm2 : mergedAll e0 cs1 = true := hm
      rw [add_element]
      cases hf2 : p.children.find? (reusePred tg2 a2) with
      | some e02 =>
        rw [mergedB, withChildren_children]
        have hcong : ∀ y, p.children.find? (reusePred tg2 a2) = some y →
            reusePred t1 a1 (addChildren e02 cs2) = reusePred t1 a1 y := by
          intro y hy
          rw [hf2] at hy
          cases hy
          exact reusePred_congr (addChildren_tag ..) (addChildren_attribs ..)
        cases find?_setFirst_cases hcong with
        | inl hl =>
          rw [hl, hf]
          exact hm2
        | inr hr =>
          rw [hr.2]
          have he : e0 = e02 := by
            have := hr.1
            rw [hf, hf2] at this
            exact Option.some.inj this
          subst he
          show mergedAll (addChildren e0 cs2) cs1 = true
          exact mergedAll_mono
            (fun c _ hmc => merged_stable_children cs2 e0 c hall.2 hmc) hm2
      | none =>
        have hqe : reusePred t1 a1 (addChildren (XNode.mk tg2 a2 none []) cs2) = false := by
          cases hq : reusePred t1 a1 (addChildren (XNode.mk tg2 a2 none []) cs2) with
          | false => rfl
          | true =>
            exfalso
            have htag2 : (addChildren (XNode.mk tg2 a2 none []) cs2).tag = tg2 := by
              rw [addChildren_tag]; rfl
            have hattr2 : (addChildren (XNode.mk tg2 a2 none []) cs2).attribs = a2 := by
              rw [addChildren_attribs]; rfl
            rw [reusePred, htag2] at hq
            rw [show getAttr (addChildren (XNode.mk tg2 a2 none []) cs2) "id"
                = lookupAttr a2 "id" by rw [getAttr, hattr2]] at hq
            rw [Bool.and_eq_true, Bool.and_eq_true] at hq
            have heqt : tg2 = t1 := by
              have := hq.1.2
              rwa [beq_iff_eq] at this
            have heqa : lookupAttr a2 "id" = lookupAttr a1 "id" := by
              have := hq.2
              rwa [beq_iff_eq] at this
            have hfeq : reusePred tg2 a2 = reusePred t1 a1 :=
              funext (fun c => reusePred_ext heqt heqa c)
            rw [hfeq, hf] at hf2
            exact Option.noConfusion hf2
        cases pos with
        | some pp =>
          rw [mergedB, withChildren_children, find?_pyInsert_neg hqe, hf]
          exact hm2
        | none =>
          rw [mergedB, withChildren_children, find?_append_one_neg hqe, hf]
          exact hm2

/-- Stability over the recursive child loop of `add_element`. -/
theorem merged_stable_children (cs2 : List XNode) (e t : XNode)
    (hall : allIdsList cs2 = true) (hm : mergedB e t = true) :
    mergedB (addChildren e cs2) t = true := by
  match cs2 with
  | [] => rw [addChildren]; exact hm
  | c :: rest =>
    rw [addChildren]
    rw [allIdsList, Bool.and_eq_true] at hall
    exact merged_stable_children rest _ t hall.2 (merged_stable c e t none hall.1 hm)
end

mutual
/-- No-op: on a parent into which the template is already merged,
    `add_element` changes nothing (whatever the position argument). -/
theorem merged_noop (t : XNode) (p : XNode) (pos : Option Nat)
    (hm : mergedB p t = true) : add_element p t pos = p := by
  match t with
  | .mk t1 a1 x1 cs1 =>
    rw [mergedB] at hm
    cases hf : p.children.find? (reusePred t1 a1) with
    | none => rw [hf] at hm; simp at hm
    | some e0 =>
      rw [hf] at hm
      have hm2 : mergedAll e0 cs1 = true := hm
      rw [add_element, hf]
      show p.withChildren (setFirst (reusePred t1 a1) (addChildren e0 cs1) p.children) = p
      rw [merged_noop_children cs1 e0 hm2, setFirst_of_find?_self hf, withChildren_self]

/-- No-op over the recursive child loop of `add_element`. -/
theorem merged_noop_children (cs : List XNode) (e : XNode)
    (hm : mergedAll e cs = true) : addChildren e cs = e := by
  match cs with
  | [] => rw [addChildren]
  | c :: rest =>
    rw [mergedAll, Bool.and_eq_true] at hm
    rw [addChildren, merged_noop c e none hm.1, merged_noop_children rest e hm.2]
end

mutual
/-- Establishment: after `add_element` of an all-`id` template, the template
    is merged into the parent. -/
theorem merged_establish (t : XNode) (p : XNode) (pos : Option Nat)
    (hall : allIds t = true) : mergedB (add_element p t pos) t = true := by
  match t with
  | .mk t1 a1 x1 cs1 =>
    rw [allIds, Bool.and_eq_true] at hall
    rw [add_element]
    cases hf : p.children.find? (reusePred t1 a1) with
    | some e0 =>
      rw [mergedB, withChildren_children]
      have hq0 : reusePred t1 a1 e0 = true := List.find?_some hf
      have hqx : reusePred t1 a1 (addChildren e0 cs1) = true := by
        rw [reusePred_congr (addChildren_tag ..) (addChildren_attribs ..)]
        exact hq0
      rw [find?_setFirst_self hf hqx]
      show mergedAll (addChildren e0 cs1) cs1 = true
      exact merged_establish_children cs1 e0 hall.2
    | none =>
      have hqe : reusePred t1 a1 (addChildren (XNode.mk t1 a1 none []) cs1) = true := by
        rw [reusePred, show (addChildren (XNode.mk t1 a1 none []) cs1).tag = t1 by
            rw [addChildren_tag]; rfl,
          show getAttr (addChildren (XNode.mk t1 a1 none []) cs1) "id"
              = lookupAttr a1 "id" by rw [getAttr, addChildren_attribs]; rfl]
        simp [hall.1]
      cases pos with
      | some pp =>
        rw [mergedB, withChildren_children, find?_pyInsert_pos hf hqe]
        show mergedAll (addChildren (XNode.mk t1 a1 none []) cs1) cs1 = true
        exact merged_establish_children cs1 _ hall.2
      | none =>
        rw [mergedB, withChildren_children, find?_append_one_pos hf hqe]
        show mergedAll (addChildren (XNode.mk t1 a1 none []) cs1) cs1 = true
        exact merged_establish_children cs1 _ hall.2

/-- Establishment over the recursive child loop: after adding all-`id`
    children `cs` below `e`, every one of them is merged into the result. -/
theorem merged_establish_children (cs : List XNode) (e : XNode)
    (hall : allIdsList cs = true) : mergedAll (addChildren e cs) cs = true := by
  match cs with
  | [] => rfl
  | c :: rest =>
    rw [allIdsList, Bool.and_eq_true] at hall
    rw [addChildren, mergedAll, Bool.and_eq_true]
    constructor
    · exact merged_stable_children rest _ c hall.2
        (merged_establish c e none hall.1)
    · exact merged_establish_children rest (add_element e c none) hall.2
end

theorem addAppend_eq_addChildren (r : XNode) (cs : List XNode) :
    addAppend r cs = addChildren r cs := by
  induction cs generalizing r with
  | nil => rw [addAppend, addChildren]
  | cons c rest ih => rw [addAppend, addChildren, ih]

theorem addBefore_stable {cs : List XNode} {r t : XNode} (p0 : Nat)
    (hall : ∀ c ∈ cs, allIds c = true) (hm : mergedB r t = true) :
    mergedB (addBefore r p0 cs) t = true := by
  induction cs generalizing r p0 with
  | nil => rw [addBefore]; exact hm
  | cons c rest ih =>
    rw [addBefore]
    exact ih _ (fun d hd => hall d (List.mem_cons_of_mem c hd))
      (merged_stable c r t (some p0) (hall c (List.mem_cons_self c rest)) hm)

theorem addAppend_stable {cs : List XNode} {r t : XNode}
    (hall : ∀ c ∈ cs, allIds c = true) (hm : mergedB r t = true) :
    mergedB (addAppend r cs) t = true := by
  induction cs generalizing r with
  | nil => rw [addAppend]; exact hm
  | cons c rest ih =>
    rw [addAppend]
    exact ih (fun d hd => hall d (List.mem_cons_of_mem c hd))
      (merged_stable c r t none (hall c (List.mem_cons_self c rest)) hm)

theorem addBefore_noop {cs : List XNode} {r : XNode} (p0 : Nat)
    (hm : ∀ c ∈ cs, mergedB r c = true) : addBefore r p0 cs = r := by
  induction cs generalizing p0 with
  | nil => rw [addBefore]
  | cons c rest ih =>
    rw [addBefore, merged_noop c r (some p0) (hm c (List.mem_cons_self c rest))]
    exact ih _ (fun d hd => hm d (List.mem_cons_of_mem c hd))

theorem addAppend_noop {cs : List XNode} {r : XNode}
    (hm : ∀ c ∈ cs, mergedB r c = true) : addAppend r cs = r := by
  induction cs with
  | nil => rw [addAppend]
  | cons c rest ih =>
    rw [addAppend, merged_noop c r none (hm c (List.mem_cons_self c rest))]
    exact ih (fun d hd => hm d (List.mem_cons_of_mem c hd))

theorem addBefore_establishes {cs : List XNode} {r : XNode} (p0 : Nat)
    (hall : ∀ c ∈ cs, allIds c = true) :
    ∀ c ∈ cs, mergedB (addBefore r p0 cs) c = true := by
  induction cs generalizing r p0 with
  | nil => intro c hc; simp at hc
  | cons c0 rest ih =>
    intro c hc
    rw [addBefore]
    cases List.mem_cons.mp hc with
    | inl h =>
      subst h
      refine addBefore_stable _ (fun d hd => hall d (List.mem_cons_of_mem _ hd)) ?_
      exact merged_establish c r (some p0) (hall c (List.mem_cons_self _ _))
    | inr h =>
      exact ih _ (fun d hd => hall d (List.mem_cons_of_mem c0 hd)) c h

theorem addAppend_establishes {cs : List XNode} {r : XNode}
    (hall : ∀ c ∈ cs, allIds c = true) :
    ∀ c ∈ cs, mergedB (addAppend r cs) c = true := by
  induction cs generalizing r with
  | nil => intro c hc; simp at hc
  | cons c0 rest ih =>
    intro c hc
    rw [addAppend]
    cases List.mem_cons.mp hc with
    | inl h =>
      subst h
      refine addAppend_stable (fun d hd => hall d (List.mem_cons_of_mem _ hd)) ?_
      exact merged_establish c r none (hall c (List.mem_cons_self _ _))
    | inr h =>
      exact ih (fun d hd => hall d (List.mem_cons_of_mem c0 hd)) c h

theorem add_element_children_ne_nil (p t : XNode) (pos : Option Nat) :
    (add_element p t pos).children ≠ [] := by
  obtain ⟨t1, a1, x1, cs1⟩ := t
  rw [add_element]
  cases hf : p.children.find? (reusePred t1 a1) with
  | some e0 =>
    rw [withChildren_children]
    intro h
    have hl := length_setFirst (reusePred t1 a1) (addChildren e0 cs1) p.children
    rw [h] at hl
    have : p.children = [] := List.length_eq_zero.mp hl.symm
    rw [this] at hf
    simp at hf
  | none =>
    cases pos with
    | some pp =>
      rw [withChildren_children]
      unfold pyInsert
      intro h
      have := congrArg List.length h
      simp at this
    | none =>
      rw [withChildren_children]
      intro h
      have := congrArg List.length h
      simp at this

theorem addAppend_children_ne_nil {r : XNode} {cs : List XNode}
    (h : r.children ≠ [] ∨ cs ≠ []) : (addAppend r cs).children ≠ [] := by
  induction cs generalizing r with
  | nil =>
    rw [addAppend]
    exact h.elim id (fun hc => absurd rfl hc)
  | cons c rest ih =>
    rw [addAppend]
    exact ih (Or.inl (add_element_children_ne_nil r c none))

theorem addBefore_children_ne_nil {r : XNode} {cs : List XNode} (p0 : Nat)
    (h : r.children ≠ [] ∨ cs ≠ []) : (addBefore r p0 cs).children ≠ [] := by
  induction cs generalizing r p0 with
  | nil =>
    rw [addBefore]
    exact h.elim id (fun hc => absurd rfl hc)
  | cons c rest ih =>
    rw [addBefore]
    exact ih _ (Or.inl (add_element_children_ne_nil r c (some p0)))

theorem allIdsList_mem {cs : List XNode} {c : XNode} (h : allIdsList cs = true)
    (hc : c ∈ cs) : allIds c = true := by
  induction cs with
  | nil => simp at hc
  | cons d rest ih =>
    rw [allIdsList, Bool.and_eq_true] at h
    cases List.mem_cons.mp hc with
    | inl h2 => subst h2; exact h.1
    | inr h2 => exact ih h.2 h2

theorem firstIdx_some_ne_nil {q : α → Bool} {l : List α} {j : Nat}
    (h : firstIdx q l = some j) : l ≠ [] := by
  intro hl
  rw [hl] at h
  simp [firstIdx] at h

/-- Second application of `update_from_template` on a tree into which every
    template child is already merged: all additions are no-ops and the call
    returns the tree unchanged with no error. -/
theorem update_merged_noop (T tpl : XNode) (b : Bool)
    (hm : ∀ c ∈ tpl.children, mergedB T c = true)
    (hT : T.tag = "beast") (ht : tpl.tag = "beast")
    (hv : getAttr T "version" = getAttr tpl "version")
    (hbo : (b || tpl.children.any (fun c => c.tag == "operators")) = true)
    (hne : tpl.children ≠ []) (hTc : T.children ≠ []) :
    update_from_template T tpl b = (T, none) := by
  unfold update_from_template
  rw [if_neg (by simp [hT]), if_neg (by simp [ht]), if_neg (by simp [hv])]
  dsimp only
  rw [if_pos hbo, findPosition_ne_nil hTc]
  cases hj : firstIdx (fun c => c.tag == "operators") tpl.children with
  | some j =>
    dsimp only [Option.getD_some]
    rw [addBefore_noop _ (fun c hc => hm c (List.take_subset j tpl.children hc))]
    rw [addAppend_noop (fun c hc => hm c (List.drop_subset j tpl.children hc))]
  | none =>
    dsimp only [Option.getD_none]
    rw [List.take_length]
    rw [addBefore_noop _ (fun c hc => hm c hc)]
    cases hcs : tpl.children with
    | nil => exact absurd hcs hne
    | cons c0 rest =>
      dsimp only
      rw [addAppend_noop (fun c hc => by
        apply hm
        rw [hcs]
        exact List.drop_subset _ _ hc)]

/-- Characterization of a successful first application: the format checks
    passed, the anchored branch ran without `NameError`, and the result is an
    `addBefore` phase followed by an `addAppend` phase whose instruction
    lists are drawn from (and jointly cover) the template children. -/
theorem update_success_shape (root tpl : XNode) (b : Bool)
    (h1 : (update_from_template root tpl b).2 = none) :
    root.tag = "beast" ∧ tpl.tag = "beast" ∧
      getAttr root "version" = getAttr tpl "version" ∧
      (b || tpl.children.any (fun c => c.tag == "operators")) = true ∧
      tpl.children ≠ [] ∧
      ∃ (p0 : Nat) (pre suffix : List XNode),
        (update_from_template root tpl b).1 = addAppend (addBefore root p0 pre) suffix ∧
        (∀ c ∈ pre, c ∈ tpl.children) ∧ (∀ c ∈ suffix, c ∈ tpl.children) ∧
        (∀ c ∈ tpl.children, c ∈ pre ∨ c ∈ suffix) ∧ (pre ≠ [] ∨ suffix ≠ []) := by
  have hr : root.tag = "beast" := by
    by_contra hr
    unfold update_from_template at h1
    rw [if_pos hr] at h1
    simp at h1
  have ht : tpl.tag = "beast" := by
    by_contra ht
    unfold update_from_template at h1
    rw [if_neg (by simp [hr]), if_pos ht] at h1
    simp at h1
  have hv : getAttr root "version" = getAttr tpl "version" := by
    by_contra hv
    unfold update_from_template at h1
    rw [if_neg (by simp [hr]), if_neg (by simp [ht]), if_pos hv] at h1
    simp at h1
  unfold update_from_template at h1
  rw [if_neg (by simp [hr]), if_neg (by simp [ht]), if_neg (by simp [hv])] at h1
  dsimp only at h1
  by_cases hbo : (b || tpl.children.any fun c => c.tag == "operators") = true
  case neg =>
    rw [if_neg hbo] at h1
    simp at h1
  rw [if_pos hbo] at h1
  cases hfp : findPosition root.children with
  | none =>
    rw [hfp] at h1
    cases hj : firstIdx (fun c => c.tag == "operators") tpl.children with
    | none => rw [hj] at h1; simp at h1
    | some j =>
      cases j with
      | zero =>
        have hupd : update_from_template root tpl b = (addAppend root tpl.children, none) := by
          unfold update_from_template
          rw [if_neg (by simp [hr]), if_neg (by simp [ht]), if_neg (by simp [hv])]
          dsimp only
          rw [if_pos hbo, hfp, hj]
        refine ⟨hr, ht, hv, hbo, firstIdx_some_ne_nil hj, 0, [], tpl.children,
          ?_, by simp, fun c hc => hc, fun c hc => Or.inr hc,
          Or.inr (firstIdx_some_ne_nil hj)⟩
        rw [hupd, addBefore]
      | succ j2 => rw [hj] at h1; simp at h1
  | some p0 =>
    rw [hfp] at h1
    cases hj : firstIdx (fun c => c.tag == "operators") tpl.children with
    | some j =>
      have hupd : update_from_template root tpl b =
          (addAppend (addBefore root p0 (tpl.children.take j)) (tpl.children.drop j),
            none) := by
        unfold update_from_template
        rw [if_neg (by simp [hr]), if_neg (by simp [ht]), if_neg (by simp [hv])]
        dsimp only
        rw [if_pos hbo, hfp, hj]
        dsimp only [Option.getD_some]
      refine ⟨hr, ht, hv, hbo, firstIdx_some_ne_nil hj, p0,
        tpl.children.take j, tpl.children.drop j, ?_,
        fun c hc => List.take_subset j tpl.children hc,
        fun c hc => List.drop_subset j tpl.children hc, ?_, ?_⟩
      · rw [hupd]
      · intro c hc
        rw [← List.take_append_drop j tpl.children] at hc
        exact List.mem_append.mp hc
      · by_contra hcon
        push_neg at hcon
        apply firstIdx_some_ne_nil hj
        rw [← List.take_append_drop j tpl.children, hcon.1, hcon.2]
        rfl
    | none =>
      rw [hj] at h1
      cases hcs : tpl.children with
      | nil => rw [hcs] at h1; simp at h1
      | cons c0 rest =>
        have hupd : update_from_template root tpl b =
            (addAppend (addBefore root p0 (c0 :: rest))
              ((c0 :: rest).drop ((c0 :: rest).length - 1)), none) := by
          unfold update_from_template
          rw [if_neg (by simp [hr]), if_neg (by simp [ht]), if_neg (by simp [hv])]
          dsimp only
          rw [if_pos hbo, hfp, hj]
          dsimp only [Option.getD_none]
          rw [hcs]
          dsimp only
          rw [List.take_length]
        rw [hcs] at hbo
        refine ⟨hr, ht, hv, hbo, by simp, p0, c0 :: rest,
          (c0 :: rest).drop ((c0 :: rest).length - 1), ?_,
          fun c hc => hc,
          fun c hc => List.drop_subset _ _ hc,
          fun c hc => Or.inl hc,
          Or.inl (by simp)⟩
        rw [hupd]

/-- C2 amended: when every template node carries an `id` attribute and the
    first application of `update_from_template` succeeded, a second
    application with the same template returns the same tree (and no error):
    every add finds its node by tag+id and adds nothing. -/
theorem c2_idempotent (root tpl : XNode) (b : Bool)
    (hall : allIdsList tpl.children = true)
    (h1 : (update_from_template root tpl b).2 = none) :
    update_from_template (update_from_template root tpl b).1 tpl b =
      ((update_from_template root tpl b).1, none) := by
  obtain ⟨hr, ht, hv, hbo, hne, p0, pre, suffix, hshape, hpre, hsuf, hcover, hnn⟩ :=
    update_success_shape root tpl b h1
  have hallmem : ∀ c ∈ tpl.children, allIds c = true :=
    fun c hc => allIdsList_mem hall hc
  have hpreIds : ∀ c ∈ pre, allIds c = true := fun c hc => hallmem c (hpre c hc)
  have hsufIds : ∀ c ∈ suffix, allIds c = true := fun c hc => hallmem c (hsuf c hc)
  have hm : ∀ c ∈ tpl.children,
      mergedB (update_from_template root tpl b).1 c = true := by
    intro c hc
    rw [hshape]
    cases hcover c hc with
    | inl hp =>
      exact addAppend_stable hsufIds (addBefore_establishes p0 hpreIds c hp)
    | inr hs =>
      exact addAppend_establishes hsufIds c hs
  have htag : (update_from_template root tpl b).1.tag = "beast" := by
    rw [hshape, addAppend_tag, addBefore_tag, hr]
  have hver : getAttr (update_from_template root tpl b).1 "version" =
      getAttr tpl "version" := by
    rw [hshape, addAppend_getAttr, addBefore_getAttr, hv]
  have hcn : (update_from_template root tpl b).1.children ≠ [] := by
    rw [hshape]
    cases hnn with
    | inl hp => exact addAppend_children_ne_nil (Or.inl (addBefore_children_ne_nil p0 (Or.inr hp)))
    | inr hs => exact addAppend_children_ne_nil (Or.inr hs)
  exact update_merged_noop _ tpl b hm htag ht hver hbo hne hcn

def c2IdTemplate : XNode :=
  XNode.mk "beast" [("version", "1")] none
    [XNode.mk "x" [("id", "x1")] none [XNode.mk "z" [("id", "z1")] none []]]

/-- Witness for the amended C2: an all-`id` template applied twice to a
    concrete target gives the same tree as applying it once. -/
theorem c2_idempotent_witness :
    allIdsList c2IdTemplate.children = true ∧
    (update_from_template c2Target c2IdTemplate true).2 = none ∧
    update_from_template (update_from_template c2Target c2IdTemplate true).1
        c2IdTemplate true =
      ((update_from_template c2Target c2IdTemplate true).1, none) :=
  ⟨rfl, rfl, c2_idempotent c2Target c2IdTemplate true rfl rfl⟩

end BeastUtils
